import Mathlib

/-!
# Verification of the logqbit asynchronous persistence core

Shallow embedding of the persistence core of the `logqbit` experiment-logging
library: the row buffer and debounced background writer of
`src/logqbit/logfolder.py`, the transient IO worker of `src/logqbit/client.py`,
and the lock-guarded metadata store (`LogIndex` / `FileLock`) of
`src/logqbit/index.py`.

Machine state that the Python code mutates in place is passed explicitly;
the file system is a finite association list of paths to file contents
tagged with a version number (standing in for the mtime+size fingerprint);
fallible operations return `Except`/`Option`.  Serialization formats
(YAML/JSON/parquet) are opaque codecs per the spec, so files store the
structured content directly.
-/

namespace Logqbit

/-- A scalar cell value: a number (rationals stand in for the Python floats,
which are only carried, never computed with) or a string. -/
inductive Scalar where
  | num (q : ℚ)
  | str (s : String)
deriving DecidableEq

/-- A value passed to `add_row`: either a scalar or a non-string sequence.
In the Python source the vector test is `hasattr(v, "__len__") and not
isinstance(v, str)`; strings have `__len__` but are explicitly excluded,
which `Scalar.str` under the `scal` constructor reflects. -/
inductive CellVal where
  | scal (v : Scalar)
  | seq (l : List Scalar)
deriving DecidableEq

/-- Whether a value counts as a vector (multi-row) input in `add_row`. -/
def CellVal.isSeq : CellVal → Bool
  | .seq _ => true
  | .scal _ => false

/-- Extract a scalar value; `none` on a sequence. -/
def CellVal.asScalar : CellVal → Option Scalar
  | .scal v => some v
  | .seq _ => none

/-- A JSON-serializable metadata value (`LogIndex` records). -/
inductive JVal where
  | jstr (s : String)
  | jbool (b : Bool)
  | jnum (n : Int)
deriving DecidableEq

/-- A metadata record: a Python `dict` in insertion order. -/
abbrev Record := List (String × JVal)

/-- Dictionary lookup on a record. -/
def recordLookup (k : String) : Record → Option JVal
  | [] => none
  | (k2, v) :: r => if k2 = k then some v else recordLookup k r

/-- Dictionary assignment `root[key] = value`: an existing key is updated in
place, a new key is appended (Python dicts keep insertion order). -/
def recordSet (k : String) (v : JVal) : Record → Record
  | [] => [(k, v)]
  | (k2, v2) :: r => if k2 = k then (k, v) :: r else (k2, v2) :: recordSet k v r

theorem recordLookup_recordSet (k : String) (v : JVal) (r : Record) :
    recordLookup k (recordSet k v r) = some v := by
  induction r with
  | nil => simp [recordSet, recordLookup]
  | cons e r ih =>
    by_cases h : e.1 = k
    · simp [recordSet, recordLookup, h]
    · simp [recordSet, recordLookup, h, ih]

/-- A file-system path, as a list of components. -/
abbrev FsPath := List String

/-- The stem of a file name: everything before the final dot
(the suffix-stripping behaviour of `pathlib`). -/
def stemOf (s : String) : String :=
  let parts := s.splitOn "."
  if parts.length ≤ 1 then s else String.intercalate "." parts.dropLast

/-- `pathlib.Path.with_suffix`: replace the extension of the final
component with `suf` (which includes the leading dot). -/
def withSuffix : FsPath → String → FsPath
  | [], _ => []
  | [x], suf => [stemOf x ++ suf]
  | x :: xs, suf => x :: withSuffix xs suf

/-- A columnar table (a `pandas.DataFrame` snapshot): named columns and
row-major cells, `none` standing for the null of the serialization layer. -/
structure Table where
  cols : List String
  cells : List (List (Option Scalar))
deriving DecidableEq

/-- Contents of a file on disk: an opaque-codec metadata record (YAML/JSON)
or a columnar data table (parquet/feather). -/
inductive FileContent where
  | json (r : Record)
  | table (t : Table)
deriving DecidableEq

/-- The file system: an association list of files, each carrying a version
number that models the mtime+size fingerprint, and a global clock from
which fresh versions are drawn. -/
structure FS where
  files : List (FsPath × FileContent × Nat)
  clock : Nat
deriving DecidableEq

/-- Look a path up in a file listing (first match wins). -/
def fsFind : List (FsPath × FileContent × Nat) → FsPath → Option (FileContent × Nat)
  | [], _ => none
  | e :: es, p => if e.1 = p then some e.2 else fsFind es p

/-- Remove all entries at a path. -/
def fsRemove : List (FsPath × FileContent × Nat) → FsPath → List (FsPath × FileContent × Nat)
  | [], _ => []
  | e :: es, p => if e.1 = p then fsRemove es p else e :: fsRemove es p

/-- Read the contents of a file. -/
def fsRead (fs : FS) (p : FsPath) : Option FileContent :=
  (fsFind fs.files p).map Prod.fst

/-- The version (fingerprint) of a file. -/
def fsStat (fs : FS) (p : FsPath) : Option Nat :=
  (fsFind fs.files p).map Prod.snd

/-- Write (create or overwrite) a file; stamps a fresh version. -/
def fsWrite (fs : FS) (p : FsPath) (c : FileContent) : FS :=
  ⟨(p, c, fs.clock + 1) :: fs.files, fs.clock + 1⟩

/-- `src.replace(dst)`: atomically rename `src` over `dst`, keeping the
version of the file (rename preserves mtime).  No-op if `src` is missing. -/
def fsRename (fs : FS) (src dst : FsPath) : FS :=
  match fsFind fs.files src with
  | some (c, v) => ⟨(dst, c, v) :: fsRemove fs.files src, fs.clock⟩
  | none => fs

theorem fsRead_fsWrite_self (fs : FS) (p : FsPath) (c : FileContent) :
    fsRead (fsWrite fs p c) p = some c := by
  simp [fsRead, fsWrite, fsFind]

theorem fsFind_rename_write (fs : FS) (a b : FsPath) (c : FileContent) :
    fsFind (fsRename (fsWrite fs a c) a b).files b = some (c, fs.clock + 1) := by
  simp [fsRename, fsWrite, fsFind]

theorem fsRead_rename_write (fs : FS) (a b : FsPath) (c : FileContent) :
    fsRead (fsRename (fsWrite fs a c) a b) b = some c := by
  simp [fsRead, fsFind_rename_write]

/-! ## LogFolder (`src/logqbit/logfolder.py`)

`LogFolder` owns an in-memory row buffer (`_records` for pending scalar rows,
`_segs` for completed segments), the metadata mapping of the folder, and the
`_dirty`/`_stop` events shared with its background writer thread. -/

/-- The in-process state of a `LogFolder` instance. -/
structure LFState where
  path : FsPath
  meta : Record
  records : List (List (String × Scalar))
  segs : List Table
  dirty : Bool
  stop : Bool
deriving DecidableEq

/-- `self.path / META_FILENAME` (`meta.yaml`). -/
def metaPath (s : LFState) : FsPath := s.path ++ ["meta.yaml"]

/-- `self.path / DATA_FILENAME` (`data.parquet`). -/
def dataPath (s : LFState) : FsPath := s.path ++ ["data.parquet"]

/-- Column union in first-seen order: add `c` unless already present. -/
def addCol (acc : List String) (c : String) : List String :=
  if c ∈ acc then acc else acc ++ [c]

/-- Fold `addCol` over a list of column names. -/
def unionCols (acc : List String) (cs : List String) : List String :=
  cs.foldl addCol acc

/-- The column set of a batch of scalar rows, in first-seen order. -/
def seenCols (recs : List (List (String × Scalar))) : List String :=
  recs.foldl (fun acc r => unionCols acc (r.map Prod.fst)) []

/-- Look a column up in a scalar row. -/
def rowLookup (c : String) : List (String × Scalar) → Option Scalar
  | [] => none
  | (k, v) :: r => if k = c then some v else rowLookup c r

/-- `pd.DataFrame.from_records(records)`: columns are the union of the keys
in first-seen order, one row per record, missing keys becoming null. -/
def recordsToSeg (recs : List (List (String × Scalar))) : Table :=
  let cols := seenCols recs
  ⟨cols, recs.map fun r => cols.map fun c => rowLookup c r⟩

/-- `LogFolder._flush_rec_to_segs`: if any scalar rows are pending, close
them into a segment and clear the pending list. -/
def flushRecToSegs (s : LFState) : LFState :=
  if s.records = [] then s
  else { s with segs := s.segs ++ [recordsToSeg s.records], records := [] }

theorem flushRecToSegs_idem (s : LFState) :
    flushRecToSegs (flushRecToSegs s) = flushRecToSegs s := by
  by_cases h : s.records = []
  · simp [flushRecToSegs, h]
  · simp [flushRecToSegs, h]

/-- The error a vector insertion with inconsistent lengths raises
(`pandas.ValueError`, named `ShapeMismatch` by the spec). -/
inductive AddErr where
  | shapeMismatch
deriving DecidableEq

/-- The lengths of all sequence-valued entries of the call. -/
def seqLengths (kwargs : List (String × CellVal)) : List Nat :=
  kwargs.filterMap fun kv =>
    match kv.2 with
    | .seq l => some l.length
    | .scal _ => none

/-- The cell of a vector-insertion column at row `i`: scalars broadcast,
sequences are indexed. -/
def vectorCell (v : CellVal) (i : Nat) : Option Scalar :=
  match v with
  | .scal x => some x
  | .seq l => l.get? i

/-- `pd.DataFrame(kwargs)` in the vector branch of `add_row`: all sequence
values must share one length `n` (scalars broadcast to `n`); otherwise
pandas raises, which the spec names `ShapeMismatch`. -/
def buildVectorSeg (kwargs : List (String × CellVal)) : Except AddErr Table :=
  match seqLengths kwargs with
  | [] => .error .shapeMismatch
  | n :: rest =>
    if rest.all fun m => m = n then
      .ok ⟨kwargs.map Prod.fst,
        (List.range n).map fun i => kwargs.map fun kv => vectorCell kv.2 i⟩
    else .error .shapeMismatch

/-- `LogFolder.add_row(**kwargs)`.  A raised error is returned alongside the
state the call leaves behind: in the vector branch `_flush_rec_to_segs` has
already run when `pd.DataFrame(kwargs)` raises, and `_dirty.set()` is only
reached on success. -/
def addRow (s : LFState) (kwargs : List (String × CellVal)) :
    Option AddErr × LFState :=
  if kwargs.any fun kv => kv.2.isSeq then
    let s1 := flushRecToSegs s
    match buildVectorSeg kwargs with
    | .ok t => (none, { s1 with segs := s1.segs ++ [t], dirty := true })
    | .error e => (some e, s1)
  else
    (none, { s with
      records := s.records ++ [kwargs.filterMap fun kv => kv.2.asScalar.map (kv.1, ·)],
      dirty := true })

/-- The index of a column in the own column list of a segment. -/
def colIndex (cols : List String) (c : String) : Option Nat :=
  cols.findIdx? (· = c)

/-- The cell of a segment row under a (possibly foreign) column name. -/
def rowCell (t : Table) (row : List (Option Scalar)) (c : String) : Option Scalar :=
  match colIndex t.cols c with
  | some i => (row.get? i).getD none
  | none => none

/-- Re-express the rows of a segment over a wider column list (`pd.concat`
fills absent columns with nulls). -/
def reindexRows (cols : List String) (t : Table) : List (List (Option Scalar)) :=
  t.cells.map fun row => cols.map fun c => rowCell t row c

/-- `pd.concat(segs)` as used by the `df` property: zero segments give an
empty frame, one segment is returned as-is, several are concatenated with
the column union in first-seen order. -/
def concatSegs : List Table → Table
  | [] => ⟨[], []⟩
  | [t] => t
  | ts =>
    let cols := ts.foldl (fun acc t => unionCols acc t.cols) []
    ⟨cols, ts.foldl (fun acc t => acc ++ reindexRows cols t) []⟩

/-- The table the `df` property returns: pending scalar rows are flushed,
then all segments are combined. -/
def materialize (s : LFState) : Table :=
  concatSegs (flushRecToSegs s).segs

/-- The state mutation the `df` property performs: records flushed, and the
segment list collapsed to the combined frame when there were several. -/
def dfState (s : LFState) : LFState :=
  let s1 := flushRecToSegs s
  if s1.segs.length ≤ 1 then s1 else { s1 with segs := [concatSegs s1.segs] }

/-- A disk operation, for stating in which order and to which paths the
persistence core touches the file system. -/
inductive FsOp where
  | write (p : FsPath) (c : FileContent)
  | rename (src dst : FsPath)
  | lockAcquire (p : FsPath)
  | lockRelease (p : FsPath)
deriving DecidableEq

/-- Whether an operation is a rename. -/
def FsOp.isRenameOp : FsOp → Bool
  | .rename _ _ => true
  | _ => false

/-- `LogFolder.save(force)`: returns untouched unless `_dirty` is set or
`force` is given; otherwise writes the metadata file and then the data file
(both directly at their target paths).  `self._lock` only serializes
concurrent saves and is invisible to this sequential embedding. -/
def lfSave (s : LFState) (force : Bool) (fs : FS) : LFState × FS × List FsOp :=
  if s.dirty = false ∧ force = false then (s, fs, [])
  else
    let t := materialize s
    let s1 := dfState s
    let fs1 := fsWrite fs (metaPath s) (.json s.meta)
    let fs2 := fsWrite fs1 (dataPath s) (.table t)
    (s1, fs2, [.write (metaPath s) (.json s.meta), .write (dataPath s) (.table t)])

/-- One cycle of `LogFolder._writer` after `_dirty.wait()` has returned and
the `SAVE_INTERVAL` debounce sleep has elapsed: `self._dirty.clear()`
followed by `self.save()`. -/
def writerCycle (s : LFState) (fs : FS) : LFState × FS × List FsOp :=
  let s1 := { s with dirty := false }
  lfSave s1 false fs

/-- One cycle of `client._IOWorker._run` after `_event.wait()` returned and
`_event.clear()` ran: `self.df.to_parquet(self.data_path)` directly at the
target path. -/
def ioWorkerCycle (p : FsPath) (df : Table) (fs : FS) : FS × List FsOp :=
  (fsWrite fs p (.table df), [.write p (.table df)])

/-! ## The background writer thread as a small-step machine

`LogFolder._writer` is

```
while not self._stop.is_set():
    self._dirty.wait()
    time.sleep(self.SAVE_INTERVAL)
    self._dirty.clear()
    self.save()
```

modelled with a program counter.  `threading.Event.wait()` with no timeout
blocks until the event is set, so from `waitDirty` with `dirty = false`
there is no enabled step. -/

/-- Program counter of the `_writer` loop. -/
inductive WPC where
  | loopTop
  | waitDirty
  | body
  | exited
deriving DecidableEq

/-- The view the writer task has of the shared events. -/
structure WTask where
  pc : WPC
  dirty : Bool
  stop : Bool
deriving DecidableEq

/-- One small step of `_writer`.  `none` means the task is blocked: at
`waitDirty` with the dirty event clear, `_dirty.wait()` cannot return.
The loop body (sleep, `_dirty.clear()`, `save()`) runs to the loop top;
per `writerCycle` its `save()` writes nothing. -/
def taskStep : WTask → Option WTask
  | ⟨.loopTop, d, st⟩ => some (if st then ⟨.exited, d, st⟩ else ⟨.waitDirty, d, st⟩)
  | ⟨.waitDirty, d, st⟩ => if d then some ⟨.body, d, st⟩ else none
  | ⟨.body, _, st⟩ => some ⟨.loopTop, false, st⟩
  | ⟨.exited, _, _⟩ => none

/-- `LogFolder._cleanup` / `stop()`: `stop_event.set()` — and nothing else;
in particular the `_dirty` event is not set, so a blocked `_dirty.wait()`
is not woken.  The subsequent `thread.join(timeout=2)` returns after the
timeout whether or not the thread exited. -/
def stopWriter (t : WTask) : WTask := { t with stop := true }

/-! ## LogIndex and FileLock (`src/logqbit/index.py`) -/

/-- Errors raised by the metadata store: `FileNotFoundError` from the
constructor with `create=False`, and `TimeoutError` (named `LockTimeout` by the spec) from `FileLock.acquire`. -/
inductive IdxErr where
  | notFound
  | lockTimeout
deriving DecidableEq

/-- A local timestamp, to state the `strftime` format. -/
structure DateTime where
  year : Nat
  month : Nat
  day : Nat
  hour : Nat
  minute : Nat
  second : Nat
deriving DecidableEq

/-- Two-digit zero padding of `%m %d %H %M %S`. -/
def formatTwo (n : Nat) : String :=
  if n < 10 then "0" ++ toString n else toString n

/-- `datetime.now().strftime("%Y-%m-%d %H:%M:%S")`. -/
def formatTime (t : DateTime) : String :=
  toString t.year ++ "-" ++ formatTwo t.month ++ "-" ++ formatTwo t.day ++ " "
    ++ formatTwo t.hour ++ ":" ++ formatTwo t.minute ++ ":" ++ formatTwo t.second

/-- The initial record `LogIndex.__init__` writes when `path` does not
exist and `create` is true. -/
def initRecord (title ts host : String) : Record :=
  [("title", .jstr title), ("starred", .jbool false), ("trashed", .jbool false),
   ("create_time", .jstr ts), ("create_machine", .jstr host)]

/-- The in-process state of a `LogIndex` instance: its configured path, the
in-memory record, and the `FileSnap` fingerprint captured at last load.

The fingerprint field is modelled from the spec: `registry.FileSnap` is
imported by `index.py` but `registry.py` is not in the sources; per the
spec the store "maintains a fingerprint of the backing file (modification
time + size, or equivalent) captured at last load", which the file version
number stands for. -/
structure LogIndexState where
  path : FsPath
  root : Record
  snap : Nat
deriving DecidableEq

/-- `path.with_suffix(".lock")`, the sidecar lock file of `FileLock`. -/
def lockPath (p : FsPath) : FsPath := withSuffix p ".lock"

/-- `path.with_suffix(".tmp")`, the temp file of `LogIndex.save`. -/
def tmpPath (p : FsPath) : FsPath := withSuffix p ".tmp"

/-- `LogIndex.load(path)`: the local `path` variable is computed from the
argument, but the `open` call reads `self.path` regardless. -/
def loadIdx (st : LogIndexState) (fs : FS) (arg : Option FsPath) : Option Record :=
  let _p := arg.getD st.path
  match fsRead fs st.path with
  | some (.json r) => some r
  | _ => none

/-- Modelled from the spec: `FileSnap.changed()` (missing `registry.py`)
compares the stored fingerprint with the current one of the file.
`LogIndex.reload` re-reads and replaces the in-memory record only when the
fingerprint changed, capturing the new fingerprint. -/
def reloadIdx (st : LogIndexState) (fs : FS) : LogIndexState :=
  match fsFind fs.files st.path with
  | some (c, v) =>
    if v ≠ st.snap then
      match c with
      | .json r => { st with root := r, snap := v }
      | _ => st
    else st
  | none => st

/-- `LogIndex.save(timeout)`: `with FileLock(path, timeout):` acquires the
advisory lock first — if the poll loop exhausts the timeout, `acquire`
raises and the body never runs.  Under the lock the record is dumped to
`path.with_suffix(".tmp")` and the temp file is renamed over `path`.
`lockBusy` is whether another process holds the lock for the whole
timeout window. -/
def indexSave (st : LogIndexState) (lockBusy : Bool) (fs : FS) :
    Except IdxErr Unit × FS × List FsOp :=
  if lockBusy then
    (.error .lockTimeout, fs, [])
  else
    let tmp := tmpPath st.path
    let fs1 := fsWrite fs tmp (.json st.root)
    let fs2 := fsRename fs1 tmp st.path
    (.ok (), fs2,
      [.lockAcquire (lockPath st.path), .write tmp (.json st.root),
       .rename tmp st.path, .lockRelease (lockPath st.path)])

/-- `LogIndex.__init__(path, title, create)`.  An existing file is loaded;
a missing one is first populated with the initial record when `create` is
true, else `FileNotFoundError` is raised.  `self.root = self.load()` then
reads the file back and the fingerprint is captured. -/
def logIndexInit (p : FsPath) (title : String) (create : Bool)
    (now : DateTime) (host : String) (fs : FS) :
    Except IdxErr LogIndexState × FS :=
  if (fsFind fs.files p).isSome then
    match fsFind fs.files p with
    | some (.json r, v) => (.ok ⟨p, r, v⟩, fs)
    | _ => (.error .notFound, fs)
  else if create then
    let fs1 := fsWrite fs p (.json (initRecord title (formatTime now) host))
    match fsFind fs1.files p with
    | some (.json r, v) => (.ok ⟨p, r, v⟩, fs1)
    | _ => (.error .notFound, fs1)
  else
    (.error .notFound, fs)

/-- `LogIndex.__getitem__`: `self.reload()` then `self.root[key]`. -/
def getitemIdx (st : LogIndexState) (fs : FS) (k : String) :
    LogIndexState × Option JVal :=
  let st1 := reloadIdx st fs
  (st1, recordLookup k st1.root)

/-- `LogIndex.__setitem__`: `self.reload()`, `self.root[key] = value`,
`self.save()`.  In this sequential embedding no other process holds the
lock, so `save()` succeeds. -/
def setitemIdx (st : LogIndexState) (fs : FS) (k : String) (v : JVal) :
    LogIndexState × FS × List FsOp :=
  let st1 := reloadIdx st fs
  let st2 := { st1 with root := recordSet k v st1.root }
  let res := indexSave st2 false fs
  (st2, res.2)

/-! ## The spec-modelled flush (`LogFolder.flush`)

The `LogFolder` under `src` has no `flush` method, although the test suite
calls `lf.flush()` (`tests/test_logfolder.py`, `tests/test_flush_issue.py`);
the method is part of the repository that is not among the sources. -/

/-- `data.parquet` with suffix `.tmp`, the temporary file of the writer. -/
def dataTmpPath (s : LFState) : FsPath := withSuffix (dataPath s) ".tmp"

/-- Modelled from the spec: `LogFolder.flush` and the write cycle it
synchronizes with, which are missing from the sources.  Per the spec,
`flush()` clears the flush-complete signal, forces immediate wake of a
dirty writer (bypassing the remaining debounce wait) and blocks until the
writer has cleared the dirty signal, serialized the current snapshot to a
temporary file in the same directory, atomically renamed it over the data
path and signalled flush-complete; if nothing is dirty it returns
immediately as a no-op. -/
def flushSpec (s : LFState) (fs : FS) : LFState × FS :=
  if s.dirty then
    let t := materialize s
    let fs1 := fsWrite fs (dataTmpPath s) (.table t)
    let fs2 := fsRename fs1 (dataTmpPath s) (dataPath s)
    ({ s with dirty := false }, fs2)
  else (s, fs)

/-- Run a sequence of `add_row` calls, `none` when any of them raises. -/
def addRows (rows : List (List (String × CellVal))) (s : LFState) : Option LFState :=
  match rows with
  | [] => some s
  | r :: rest =>
    match addRow s r with
    | (none, s1) => addRows rest s1
    | (some _, _) => none

theorem addRows_dirty (rows : List (List (String × CellVal))) :
    ∀ s s1, rows ≠ [] → addRows rows s = some s1 → s1.dirty = true := by
  induction rows with
  | nil => intro s s1 h; exact absurd rfl h
  | cons r rest ih =>
    intro s s1 _ hrun
    unfold addRows at hrun
    revert hrun
    unfold addRow
    by_cases hseq : r.any fun kv => kv.2.isSeq
    · simp only [hseq, if_pos]
      cases hbv : buildVectorSeg r with
      | ok t =>
        simp only []
        intro hrun
        cases hrest : rest with
        | nil => subst hrest; simp [addRows] at hrun; subst hrun; rfl
        | cons q qs =>
          exact ih _ _ (by simp [hrest]) hrun
      | error e => simp
    · simp only [hseq, if_neg, Bool.false_eq_true, not_false_iff]
      intro hrun
      cases hrest : rest with
      | nil => subst hrest; simp [addRows] at hrun; subst hrun; rfl
      | cons q qs =>
        exact ih _ _ (by simp [hrest]) hrun

/-! ## Folder numbering (`LogFolder.new` in `logfolder.py` and `client.py`) -/

/-- An entry of the parent directory as `os.scandir` reports it. -/
structure DirEntry where
  name : String
  isDir : Bool
deriving DecidableEq

/-- `int(s)` for a name with `s.isdecimal()`; `none` otherwise. -/
def decimalValue (s : String) : Option Nat :=
  if s.length != 0 && s.data.all (fun ch => ch.isDigit) then
    some (s.data.foldl (fun acc ch => acc * 10 + (ch.toNat - 48)) 0)
  else none

/-- `max(int(e.name) for e in scandir(parent) if e.is_dir() and
e.name.isdecimal())` with `default=-1`. -/
def maxIndex (entries : List DirEntry) : Int :=
  entries.foldl
    (fun acc e =>
      match (if e.isDir then decimalValue e.name else none) with
      | some n => max acc (n : Int)
      | none => acc)
    (-1)

/-- `(parent / str(i)).exists()`: any entry of any kind with that name. -/
def existsName (entries : List DirEntry) (s : String) : Bool :=
  entries.any fun e => e.name == s

/-- The `while (parent / str(new_index)).exists(): new_index += 1` loop.
The fuel bounds the finitely many sibling names the loop can collide
with; `entries.length + 1` steps always suffice. -/
def nextFree (entries : List DirEntry) : Nat → Nat → Nat
  | 0, i => i
  | fuel + 1, i =>
    if existsName entries (toString i) then nextFree entries fuel (i + 1) else i

/-- `LogFolder.new(parent)` (identical in `logfolder.py` and `client.py`):
start from one past the largest decimal directory name and advance past
any existing entry. -/
def newFolderName (entries : List DirEntry) : String :=
  toString (nextFree entries (entries.length + 1) (maxIndex entries + 1).toNat)

/-- Whether a sibling folder (directory) with this name exists. -/
def existsFolderName (entries : List DirEntry) (s : String) : Bool :=
  entries.any fun e => e.isDir && e.name == s

/-- Search for the smallest unused folder index from `i` upwards. -/
def smallestFreeFrom (entries : List DirEntry) : Nat → Nat → Nat
  | 0, i => i
  | fuel + 1, i =>
    if existsFolderName entries (toString i) then smallestFreeFrom entries fuel (i + 1)
    else i

/-- Stated from the words of the claim, for comparison with
`newFolderName`: the smallest unused non-negative integer name among the
sibling folders of the parent. -/
def claimSmallestUnusedName (entries : List DirEntry) : String :=
  toString (smallestFreeFrom entries (entries.length + 1) 0)

/-! ## Helper lemmas -/

theorem reloadIdx_path (st : LogIndexState) (fs : FS) :
    (reloadIdx st fs).path = st.path := by
  unfold reloadIdx
  rcases hf : fsFind fs.files st.path with _ | ⟨c, vv⟩
  · rfl
  · by_cases h : vv = st.snap
    · simp [h]
    · cases c <;> simp [h]

theorem setitemIdx_fs (st : LogIndexState) (fs : FS) (k : String) (v : JVal) :
    (setitemIdx st fs k v).2.1 =
      fsRename
        (fsWrite fs (tmpPath (reloadIdx st fs).path)
          (.json (recordSet k v (reloadIdx st fs).root)))
        (tmpPath (reloadIdx st fs).path) (reloadIdx st fs).path := rfl

theorem mem_seqLengths {kwargs : List (String × CellVal)} {k : String}
    {l : List Scalar} (h : (k, CellVal.seq l) ∈ kwargs) :
    l.length ∈ seqLengths kwargs := by
  unfold seqLengths
  exact List.mem_filterMap.mpr ⟨(k, .seq l), h, rfl⟩

theorem buildVectorSeg_mismatch {kwargs : List (String × CellVal)}
    {k1 k2 : String} {l1 l2 : List Scalar}
    (h1 : (k1, CellVal.seq l1) ∈ kwargs) (h2 : (k2, CellVal.seq l2) ∈ kwargs)
    (hne : l1.length ≠ l2.length) :
    buildVectorSeg kwargs = .error .shapeMismatch := by
  have m1 := mem_seqLengths h1
  have m2 := mem_seqLengths h2
  unfold buildVectorSeg
  cases hsl : seqLengths kwargs with
  | nil => rfl
  | cons n rest =>
    rw [hsl] at m1 m2
    have hall : ¬((rest.all fun m => m = n) = true) := by
      intro hall
      have hn : ∀ x ∈ n :: rest, x = n := by
        intro x hx
        rcases List.mem_cons.mp hx with h | h
        · exact h
        · exact of_decide_eq_true (List.all_eq_true.mp hall x h)
      exact hne ((hn _ m1).trans (hn _ m2).symm)
    have hfalse : (rest.all fun m => m = n) = false := by
      cases hb : (rest.all fun m => m = n) with
      | false => rfl
      | true => exact absurd hb hall
    simp [hfalse]

/-! ## Shared concrete examples -/

/-- A freshly created folder state (`LogFolder(path, create=True)` on a new
directory, metadata elided). -/
def lfFresh : LFState := ⟨["logs", "0"], [], [], [], false, false⟩

/-- A folder holding one pending scalar row, dirty. -/
def lfEx : LFState :=
  { path := ["logs", "0"], meta := [("create_machine", .jstr "host")],
    records := [[("x", .num 1)]], segs := [], dirty := true, stop := false }

/-- The empty file system. -/
def fs0 : FS := ⟨[], 0⟩

/-- The scalar call `add_row(x=1.0, y=2.0, z=3.0)`. -/
def rowXYZ : List (String × CellVal) :=
  [("x", .scal (.num 1)), ("y", .scal (.num 2)), ("z", .scal (.num 3))]

/-- The state after `add_row(x=1.0, y=2.0, z=3.0)` on a fresh folder. -/
def sAfterXYZ : LFState :=
  { path := ["logs", "0"], meta := [], segs := [],
    records := [[("x", .num 1), ("y", .num 2), ("z", .num 3)]],
    dirty := true, stop := false }

/-- A vector insertion with mismatched lengths. -/
def kwMismatch : List (String × CellVal) :=
  [("a", .seq [.num 1]), ("b", .seq [.num 1, .num 2])]

/-- Sibling folders named `0` and `2` (the gap case of the claim). -/
def sibEx : List DirEntry := [⟨"0", true⟩, ⟨"2", true⟩]

/-- Two index files with distinct records, for the `load` argument claim. -/
def fsAB : FS :=
  ⟨[(["logs", "0", "index.json"], .json [("title", .jstr "a")], 1),
    (["logs", "1", "index.json"], .json [("title", .jstr "b")], 2)], 2⟩

/-! ## Claim theorems -/

/-- C1: for every folder and every preceding nonempty sequence of
successful `add_row` calls, when `flush()` (spec-modelled, missing from the
sources) returns, the data file exists on disk and deserializes to exactly
the materialized buffer at the time of the flush. -/
theorem flush_persists_buffer (rows : List (List (String × CellVal)))
    (s s1 : LFState) (fs : FS) (hne : rows ≠ [])
    (hrun : addRows rows s = some s1) :
    fsRead (flushSpec s1 fs).2 (dataPath s1) = some (.table (materialize s1)) := by
  have hd : s1.dirty = true := addRows_dirty rows s s1 hne hrun
  unfold flushSpec
  rw [if_pos hd]
  exact fsRead_rename_write fs (dataTmpPath s1) (dataPath s1) (.table (materialize s1))

/-- Witness for C1: `add_row(x=1.0, y=2.0, z=3.0)` then `flush()` on a
fresh folder leaves the data file holding exactly one row
`{x: 1.0, y: 2.0, z: 3.0}`. -/
theorem flush_persists_buffer_witness :
    [rowXYZ] ≠ [] ∧
    addRows [rowXYZ] lfFresh = some sAfterXYZ ∧
    fsRead (flushSpec sAfterXYZ fs0).2 (dataPath sAfterXYZ) =
      some (.table (materialize sAfterXYZ)) ∧
    materialize sAfterXYZ =
      ⟨["x", "y", "z"], [[some (.num 1), some (.num 2), some (.num 3)]]⟩ :=
  ⟨by decide, by decide,
   flush_persists_buffer [rowXYZ] lfFresh sAfterXYZ fs0 (by decide) (by decide),
   by decide⟩

/-- C2 (refuted — evidence for the code bug): one full cycle of the
background `_writer` loop leaves the file system untouched and performs no
disk operation at all: the loop clears `_dirty` and then calls `save()`,
whose `if not self._dirty.is_set() and not force: return` guard always
fires because `_dirty` was just cleared. -/
theorem writer_cycle_never_writes (s : LFState) (fs : FS) :
    writerCycle s fs = ({ s with dirty := false }, fs, []) := by
  unfold writerCycle lfSave
  rw [if_pos ⟨rfl, rfl⟩]

/-- C3 (counterexample): on a dirty folder, `LogFolder.save` emits a direct
write of the data file at its target path and performs no rename at all —
contradicting the claim that every data-file write goes through a
temporary file plus atomic rename. -/
theorem data_write_in_place_counterexample :
    FsOp.write (dataPath lfEx) (.table (materialize lfEx)) ∈ (lfSave lfEx false fs0).2.2 ∧
    ((lfSave lfEx false fs0).2.2.all fun op => !op.isRenameOp) = true := by
  decide

/-- C3 (amended): the metadata store (`LogIndex.save`) writes via temp file
plus atomic rename under the file lock, but the data-file writers do not:
`LogFolder.save` writes the metadata file and the data file directly at
their target paths with no rename, and `_IOWorker` writes the data file
directly at its target path. -/
theorem persistence_write_discipline :
    (∀ st fs, (indexSave st false fs).2.2 =
      [FsOp.lockAcquire (lockPath st.path), FsOp.write (tmpPath st.path) (.json st.root),
       FsOp.rename (tmpPath st.path) st.path, FsOp.lockRelease (lockPath st.path)]) ∧
    (∀ s fs, (lfSave s true fs).2.2 =
      [FsOp.write (metaPath s) (.json s.meta),
       FsOp.write (dataPath s) (.table (materialize s))]) ∧
    (∀ s force fs, ((lfSave s force fs).2.2.all fun op => !op.isRenameOp) = true) ∧
    (∀ p df fs, (ioWorkerCycle p df fs).2 = [FsOp.write p (.table df)]) := by
  refine ⟨fun st fs => rfl, fun s fs => ?_, fun s force fs => ?_, fun p df fs => rfl⟩
  · unfold lfSave
    rw [if_neg (by simp : ¬(s.dirty = false ∧ true = false))]
  · unfold lfSave
    by_cases h : s.dirty = false ∧ force = false
    · rw [if_pos h]; rfl
    · rw [if_neg h]; rfl

theorem getitem_after_rename_write (p tmp : FsPath) (rootB : Record)
    (snapB : Nat) (fs : FS) (R : Record) (k : String)
    (hsnap : snapB ≤ fs.clock) :
    (getitemIdx ⟨p, rootB, snapB⟩ (fsRename (fsWrite fs tmp (.json R)) tmp p) k).2
      = recordLookup k R := by
  have hne : fs.clock + 1 ≠ snapB := by omega
  simp [getitemIdx, reloadIdx, fsFind_rename_write, hne]

/-- C4: every indexed read reloads first and every indexed write saves
immediately, so for two `LogIndex` instances on the same path, a key
written through instance A is returned by a subsequent read of that key
through instance B (whose fingerprint predates the write). -/
theorem metadata_read_through (p : FsPath) (rootA rootB : Record)
    (snapA snapB : Nat) (fs : FS) (k : String) (v : JVal)
    (hsnap : snapB ≤ fs.clock) :
    (getitemIdx ⟨p, rootB, snapB⟩ (setitemIdx ⟨p, rootA, snapA⟩ fs k v).2.1 k).2
      = some v := by
  have hp1 : (reloadIdx ⟨p, rootA, snapA⟩ fs).path = p := reloadIdx_path _ _
  have hfs2 : (setitemIdx ⟨p, rootA, snapA⟩ fs k v).2.1 =
      fsRename
        (fsWrite fs (tmpPath p)
          (.json (recordSet k v (reloadIdx ⟨p, rootA, snapA⟩ fs).root)))
        (tmpPath p) p := by
    rw [setitemIdx_fs, hp1]
  rw [hfs2, getitem_after_rename_write p (tmpPath p) rootB snapB fs _ k hsnap]
  exact recordLookup_recordSet k v _

/-- Witness for C4: writing `title = "demo"` through instance A on an
empty file system and reading `title` through instance B observes
`"demo"`. -/
theorem metadata_read_through_witness :
    (0 : Nat) ≤ fs0.clock ∧
    (getitemIdx ⟨["idx.json"], [], 0⟩
        (setitemIdx ⟨["idx.json"], [], 0⟩ fs0 "title" (.jstr "demo")).2.1
        "title").2 = some (JVal.jstr "demo") :=
  ⟨by decide,
   metadata_read_through ["idx.json"] [] [] 0 0 fs0 "title" (.jstr "demo") (by decide)⟩

/-- C5: `LogIndex.save` performs the temp write and the atomic rename only
between acquiring and releasing the file lock; when the lock cannot be
acquired within the timeout it raises `LockTimeout` and the file system is
untouched — neither the temp write nor the rename runs. -/
theorem index_save_lock_contract (st : LogIndexState) (fs : FS) :
    indexSave st true fs = (.error .lockTimeout, fs, []) ∧
    (indexSave st false fs).1 = .ok () ∧
    fsRead (indexSave st false fs).2.1 st.path = some (.json st.root) ∧
    (indexSave st false fs).2.2 =
      [FsOp.lockAcquire (lockPath st.path), FsOp.write (tmpPath st.path) (.json st.root),
       FsOp.rename (tmpPath st.path) st.path, FsOp.lockRelease (lockPath st.path)] := by
  refine ⟨rfl, rfl, ?_, rfl⟩
  simpa [indexSave] using
    fsRead_rename_write fs (tmpPath st.path) st.path (.json st.root)

/-- C6: a vector insertion with mismatched sequence lengths across keys
raises `ShapeMismatch` synchronously, adds no rows, and materializing
afterwards yields the same table as materializing before the call. -/
theorem addRow_shape_mismatch (s : LFState) (kwargs : List (String × CellVal))
    (k1 k2 : String) (l1 l2 : List Scalar)
    (h1 : (k1, CellVal.seq l1) ∈ kwargs) (h2 : (k2, CellVal.seq l2) ∈ kwargs)
    (hne : l1.length ≠ l2.length) :
    (addRow s kwargs).1 = some AddErr.shapeMismatch ∧
    materialize (addRow s kwargs).2 = materialize s := by
  have hseq : (kwargs.any fun kv => kv.2.isSeq) = true :=
    List.any_eq_true.mpr ⟨(k1, .seq l1), h1, rfl⟩
  have hbv := buildVectorSeg_mismatch h1 h2 hne
  unfold addRow
  rw [if_pos hseq, hbv]
  exact ⟨rfl, by unfold materialize; rw [flushRecToSegs_idem]⟩

/-- Witness for C6: `add_row(a=[1.0], b=[1.0, 2.0])` on a fresh folder
raises `ShapeMismatch` and leaves the materialized table unchanged. -/
theorem addRow_shape_mismatch_witness :
    (addRow lfFresh kwMismatch).1 = some AddErr.shapeMismatch ∧
    materialize (addRow lfFresh kwMismatch).2 = materialize lfFresh :=
  addRow_shape_mismatch lfFresh kwMismatch "a" "b" [.num 1] [.num 1, .num 2]
    (by decide) (by decide) (by decide)

/-- C7 (counterexample): the initial record written by `LogIndex.__init__`
contains no `star` key and no `trash` key at all — it writes the boolean
fields `starred = false` and `trashed = false` instead, so the claimed
`star=0` / `trash=false` fields are absent. -/
theorem init_record_schema_counterexample :
    recordLookup "star"
      (initRecord "untitled" (formatTime ⟨2024, 1, 2, 3, 4, 5⟩) "host") = none ∧
    recordLookup "trash"
      (initRecord "untitled" (formatTime ⟨2024, 1, 2, 3, 4, 5⟩) "host") = none ∧
    recordLookup "starred"
      (initRecord "untitled" (formatTime ⟨2024, 1, 2, 3, 4, 5⟩) "host")
      = some (JVal.jbool false) ∧
    recordLookup "trashed"
      (initRecord "untitled" (formatTime ⟨2024, 1, 2, 3, 4, 5⟩) "host")
      = some (JVal.jbool false) := by
  decide

/-- C7 (amended): constructing a `LogIndex` on a missing path with
`create=true` writes and loads an initial record with `title`,
`starred=false`, `trashed=false`, `create_time` formatted
`YYYY-MM-DD HH:MM:SS`, and `create_machine` set to the host name; with
`create=false` it fails with `NotFound` and the file system is unchanged. -/
theorem logindex_create_contract (p : FsPath) (title : String)
    (now : DateTime) (host : String) (fs : FS)
    (habsent : fsFind fs.files p = none) :
    (logIndexInit p title true now host fs).1 =
      .ok ⟨p, initRecord title (formatTime now) host, fs.clock + 1⟩ ∧
    fsRead (logIndexInit p title true now host fs).2 p =
      some (.json (initRecord title (formatTime now) host)) ∧
    logIndexInit p title false now host fs = (.error .notFound, fs) := by
  unfold logIndexInit
  rw [habsent]
  simp [fsWrite, fsFind, fsRead]

/-- Witness for C7 (amended): creating on an empty file system. -/
theorem logindex_create_contract_witness :
    (logIndexInit ["exp", "index.json"] "untitled" true ⟨2024, 1, 2, 3, 4, 5⟩
        "host" fs0).1 =
      .ok ⟨["exp", "index.json"],
        initRecord "untitled" (formatTime ⟨2024, 1, 2, 3, 4, 5⟩) "host", 1⟩ ∧
    fsRead (logIndexInit ["exp", "index.json"] "untitled" true
        ⟨2024, 1, 2, 3, 4, 5⟩ "host" fs0).2 ["exp", "index.json"] =
      some (.json (initRecord "untitled" (formatTime ⟨2024, 1, 2, 3, 4, 5⟩) "host")) ∧
    logIndexInit ["exp", "index.json"] "untitled" false ⟨2024, 1, 2, 3, 4, 5⟩
        "host" fs0 = (.error .notFound, fs0) :=
  logindex_create_contract ["exp", "index.json"] "untitled" ⟨2024, 1, 2, 3, 4, 5⟩
    "host" fs0 (by decide)

/-- C8 (counterexample): with sibling folders named `0` and `2`,
`LogFolder.new` names the new folder `3` — one past the maximum — while
the smallest unused non-negative integer claimed is `1`. -/
theorem new_folder_not_smallest_unused :
    newFolderName sibEx = "3" ∧ claimSmallestUnusedName sibEx = "1" ∧
    newFolderName sibEx ≠ claimSmallestUnusedName sibEx := by
  decide

/-- C8 (amended): `LogFolder.new` assigns one more than the largest
existing decimal directory name (then advances past collisions); whenever
that candidate name is unused, it is the assigned name. -/
theorem new_folder_max_plus_one (entries : List DirEntry)
    (hfree : existsName entries (toString (maxIndex entries + 1).toNat) = false) :
    newFolderName entries = toString (maxIndex entries + 1).toNat := by
  unfold newFolderName
  simp [nextFree, hfree]

/-- Witness for C8 (amended): with folders `0` and `2` the assigned name
is `max + 1 = 3`. -/
theorem new_folder_max_plus_one_witness :
    newFolderName sibEx = toString (maxIndex sibEx + 1).toNat :=
  new_folder_max_plus_one sibEx (by decide)

/-- C9 (refuted — evidence for the code bug): after `stop()`
(`stop_event.set()`), a background writer blocked in `_dirty.wait()` has no
enabled step at all — the stop flag is never observed because nothing sets
the dirty event, so the task does not terminate. -/
theorem stop_leaves_writer_blocked :
    taskStep (stopWriter ⟨WPC.waitDirty, false, false⟩) = none ∧
    (stopWriter ⟨WPC.waitDirty, false, false⟩).pc ≠ WPC.exited := by
  decide

/-- C10: `LogIndex.load(path)` ignores its argument: for every argument
value it returns the parsed content of the configured `self.path`; in
particular, pointing it at a different existing index file still returns
the record of its own path. -/
theorem load_ignores_path_argument :
    (∀ st fs arg, loadIdx st fs (some arg) = loadIdx st fs none) ∧
    loadIdx ⟨["logs", "0", "index.json"], [], 1⟩ fsAB
      (some ["logs", "1", "index.json"]) = some [("title", JVal.jstr "a")] := by
  exact ⟨fun st fs arg => rfl, by decide⟩

end Logqbit
